import Mathlib

/-!
Shallow embedding of the reminder-scheduling and message-delivery core of
the SiteClientesIPTV repository (src/message_queue.py, src/reminder_scheduler.py,
src/models.py), together with theorems settling the frozen claims.

Modelling conventions:
* Calendar dates are proleptic-Gregorian day numbers (`Int`), exactly the
  arithmetic Python's `datetime.date`/`timedelta` performs; `daysFromCivil`
  converts a civil (year, month, day) triple to its day number so concrete
  dates from the spec can be named.
* Wall-clock instants (`time.time()`, `datetime.now()`) are `Int` seconds.
* Python strings are Lean `String`s; truthiness of a string is the test
  `s = ""`; `str.strip()` emptiness is tested on the character list.
* Reminder times ("HH:MM" strings parsed with `split(':')` in the source)
  are carried as already-parsed `(hour, minute)` pairs.
* Fields of the Python classes irrelevant to every claim (float `value`,
  renewal history, AI configuration, log strings) are elided.
-/

namespace IPTV

/-- message_queue.py `MessageStatus`. -/
inductive MessageStatus where
  | pending
  | sent
  | failed
  | retrying
  | cancelled
  deriving DecidableEq, Repr

/-- message_queue.py `MessagePriority`. -/
inductive MessagePriority where
  | low
  | normal
  | high
  | urgent
  deriving DecidableEq, Repr

/-- message_queue.py `QueuedMessage` (datetimes as `Int` seconds). -/
structure QueuedMessage where
  id : String
  phone : String
  message : String
  client_id : String
  client_name : String
  message_type : String
  priority : MessagePriority
  scheduledTime : Int
  maxRetries : Nat := 3
  retryCount : Nat := 0
  status : MessageStatus := .pending
  createdAt : Int := 0
  sentAt : Option Int := none
  errorMessage : Option String := none
  deriving DecidableEq, Repr

/-- State of message_queue.py `MessageQueue`: the pending FIFO (`self.queue`),
the retry-holding area (`self.retry_queue`), the bounded history
(`self.messages_history`) and the failed list (`self.failed_messages`).
The informational `stats` dictionary is elided. -/
structure MQState where
  queue : List QueuedMessage := []
  retryQueue : List QueuedMessage := []
  history : List QueuedMessage := []
  failedMessages : List QueuedMessage := []
  deriving DecidableEq, Repr

/-- Field `MessageQueue.max_queue_size`. -/
def maxQueueSize : Nat := 1000

/-- Field `MessageQueue.delay_between_messages` (seconds). -/
def delayBetweenMessages : Int := 60

/-- Embeds `MessageQueue._validate_phone`: strip non-digits, require 10..15 digits. -/
def validatePhone (phone : String) : Bool :=
  if (phone.data.filter Char.isDigit).length < 10 ∨
      (phone.data.filter Char.isDigit).length > 15 then false
  else true

/-- Python `str.strip()` on the character list. -/
def pyStrip (s : String) : List Char :=
  ((s.data.dropWhile Char.isWhitespace).reverse.dropWhile Char.isWhitespace).reverse

/-- Embeds `MessageQueue._validate_message`: required fields, phone format,
length bound 4096, non-blank body. -/
def validateMessage (m : QueuedMessage) : Bool :=
  if m.phone = "" ∨ m.message = "" ∨ m.client_id = "" then false
  else if ¬ validatePhone m.phone then false
  else if m.message.data.length > 4096 then false
  else if pyStrip m.message = [] then false
  else true

/-- Embeds `MessageQueue.add_message`: validate, check queue depth, then push;
returns the new state and the boolean result. -/
def addMessage (st : MQState) (m : QueuedMessage) : MQState × Bool :=
  if ¬ validateMessage m then (st, false)
  else if st.queue.length ≥ maxQueueSize then (st, false)
  else ({ st with queue := st.queue ++ [m] }, true)

/-- Gregorian leap-year test (CPython `datetime._is_leap`). -/
def isLeap (y : Int) : Bool := y % 4 = 0 ∧ (y % 100 ≠ 0 ∨ y % 400 = 0)

/-- Cumulative days before month `m` in a non-leap year
(CPython `datetime._days_before_month`). -/
def daysBeforeMonth (m : Nat) : Int :=
  match m with
  | 1 => 0 | 2 => 31 | 3 => 59 | 4 => 90 | 5 => 120 | 6 => 151
  | 7 => 181 | 8 => 212 | 9 => 243 | 10 => 273 | 11 => 304 | _ => 334

/-- Proleptic-Gregorian ordinal of the date y-m-d, with 0001-01-01 ↦ 1
(CPython `date.toordinal`). `timedelta(days=k)` arithmetic on dates is
exactly addition of `k` to this ordinal. -/
def daysFromCivil (y : Int) (m d : Nat) : Int :=
  365 * (y - 1) + (y - 1) / 4 - (y - 1) / 100 + (y - 1) / 400
    + daysBeforeMonth m + (if 2 < m ∧ isLeap y then 1 else 0) + (d : Int)

/-- models.py `Client` (scheduling-relevant subset). `planExpiration` is the
parsed `plan_duration` date as a day ordinal; `reminderTime3days` /
`reminderTimePayment` are the parsed "HH:MM" pairs. -/
structure Client where
  id : String
  name : String := ""
  phone : String := ""
  planExpiration : Int
  reminderTime3days : Nat × Nat := (9, 0)
  reminderTimePayment : Nat × Nat := (10, 0)
  paymentStatus : String := "pending"
  deriving DecidableEq, Repr

/-- models.py `Client.days_until_expiration` = plan date − today, in days. -/
def daysUntilExpiration (today : Int) (c : Client) : Int :=
  c.planExpiration - today

/-- models.py `Client.is_expired`. -/
def isExpired (today : Int) (c : Client) : Bool :=
  daysUntilExpiration today c < 0

/-- models.py `Client.status`. -/
def clientStatus (today : Int) (c : Client) : String :=
  if daysUntilExpiration today c < 0 then "expirado"
  else if daysUntilExpiration today c ≤ 3 then "vencendo"
  else "ativo"

/-- models.py `Client.should_send_reminder`:
`payment_status != "paid" and not is_expired`. -/
def shouldSendReminder (today : Int) (c : Client) : Bool :=
  c.paymentStatus ≠ "paid" ∧ ¬ isExpired today c

/-- reminder_scheduler.py `send_reminder`, as the message it submits to
`queue_reminder_message` (or `none` when it returns without enqueuing).
The client fetch (`storage.get_client_by_id`, an external collaborator) is
the `client?` argument; message-body resolution (`get_reminder_message`,
whose custom/AI/template stages are external collaborators) is the
`resolve` argument, with the source's `if not message` emptiness check
kept explicit. -/
def sendReminder (today : Int) (client? : Option Client) (reminderType : String)
    (resolve : Client → String → String) : Option QueuedMessage :=
  match client? with
  | none => none
  | some client =>
    if ¬ shouldSendReminder today client then none
    else
      let message := resolve client reminderType
      if message = "" then none
      else
        let priority : MessagePriority :=
          if reminderType = "payment" then .high
          else if clientStatus today client = "expirado" then .urgent
          else .normal
        -- `queue_reminder_message` fills id with a fresh uuid4 and
        -- scheduled_time with datetime.now(); neither affects any claim.
        some { id := "", phone := client.phone, message := message,
               client_id := client.id, client_name := client.name,
               message_type := reminderType, priority := priority,
               scheduledTime := 0 }

/-- Embeds `MessageQueue._process_messages`, retry computation on a delivery
failure (lines 203-223): the message after the failure is handled, and
`some delay` when it was rescheduled (status RETRYING) or `none` when it
became terminal FAILED. The delay is `min(300, 60 * 2 ** retry_count)`
with `retry_count` already incremented. -/
def failStep (now : Int) (m : QueuedMessage) : QueuedMessage × Option Nat :=
  if m.retryCount < m.maxRetries then
    let rc := m.retryCount + 1
    let retryDelay : Nat := min 300 (60 * 2 ^ rc)
    ({ m with retryCount := rc, status := .retrying,
              scheduledTime := now + (retryDelay : Int) }, some retryDelay)
  else
    ({ m with status := .failed }, none)

/-- The message states and computed delays along `n` consecutive failed
delivery attempts of the same message. -/
def failTrace (now : Int) (m : QueuedMessage) : Nat → List (QueuedMessage × Option Nat)
  | 0 => []
  | n + 1 =>
    let step := failStep now m
    step :: failTrace now step.1 n

/-- One iteration of `_process_messages` as seen by the pacing logic:
`arrival` is `time.time()` when the message is dequeued, `sendDur` the
time spent inside `_send_message`, `success` its outcome. -/
structure WorkerEvent where
  arrival : Int
  sendDur : Nat
  success : Bool

/-- Embeds `_process_messages` pacing (lines 160-192): the instants at which each
successful `_send_message` call starts. Before each attempt, if less than
`delay` has elapsed since `last_sent_time`, the worker sleeps the
remainder, so the attempt starts at `last_sent_time + delay`; after a
success, `last_sent_time` is re-read as `time.time()`, i.e. the attempt
instant plus the send duration. Failures leave `last_sent_time` alone. -/
def sendTimes (delay : Int) (lastSent : Int) : List WorkerEvent → List Int
  | [] => []
  | e :: rest =>
    let attempt := if e.arrival - lastSent < delay then lastSent + delay else e.arrival
    if e.success then
      attempt :: sendTimes delay (attempt + (e.sendDur : Int)) rest
    else
      sendTimes delay lastSent rest

/-- Embeds the `_process_messages` history append (lines 232-238): append, then keep
only the last 1000 entries. -/
def appendHistory (hist : List QueuedMessage) (m : QueuedMessage) : List QueuedMessage :=
  if (hist ++ [m]).length > 1000 then
    (hist ++ [m]).drop ((hist ++ [m]).length - 1000)
  else hist ++ [m]

/-- Embeds `MessageQueue.cancel_messages_for_client`: drain the pending queue,
mark this client's messages CANCELLED and append them to the history
(without any trimming), keep the rest in order; return the new state and
the cancelled count. -/
def cancelLoop (clientId : String) :
    List QueuedMessage → List QueuedMessage → List QueuedMessage → Nat →
      List QueuedMessage × List QueuedMessage × Nat
  | [], newQueue, hist, n => (newQueue, hist, n)
  | m :: rest, newQueue, hist, n =>
    if m.client_id = clientId then
      cancelLoop clientId rest newQueue (hist ++ [{ m with status := .cancelled }]) (n + 1)
    else
      cancelLoop clientId rest (newQueue ++ [m]) hist n

/-- Embeds `MessageQueue.cancel_messages_for_client`, assembled from the drain
loop: the new state and the cancelled count. -/
def cancelMessagesForClient (st : MQState) (clientId : String) : MQState × Nat :=
  let (newQueue, hist, n) := cancelLoop clientId st.queue [] st.history 0
  ({ st with queue := newQueue, history := hist }, n)

/-- The two reminder kinds handled by `group_clients_by_reminder_date`
(the source's dict keys `'3days'` and `'payment'`). -/
inductive RKind where
  | threeDays
  | payment
  deriving DecidableEq, Repr

/-- The string the source uses for the kind. -/
def RKind.str : RKind → String
  | .threeDays => "3days"
  | .payment => "payment"

/-- One value of the grouping dict: `{'3days': [...], 'payment': [...]}`. -/
structure DateGroup where
  threeDays : List Client := []
  payment : List Client := []
  deriving DecidableEq, Repr

/-- Embeds `grouped[date_key][reminder_type].append(client)`. -/
def updateGroup (k : RKind) (c : Client) (g : DateGroup) : DateGroup :=
  match k with
  | .threeDays => { g with threeDays := g.threeDays ++ [c] }
  | .payment => { g with payment := g.payment ++ [c] }

/-- The body of the inner loop of `group_clients_by_reminder_date`: a
Python dict in insertion order, as an association list. Absent keys are
first bound to the empty group, then the client is appended to the
kind's bucket. -/
def insertGrouped (grouped : List (Int × DateGroup)) (key : Int) (k : RKind)
    (c : Client) : List (Int × DateGroup) :=
  if grouped.any (fun p => p.1 = key) then
    grouped.map (fun p => if p.1 = key then (p.1, updateGroup k c p.2) else p)
  else
    grouped ++ [(key, updateGroup k c {})]

/-- The body of the outer loop of `group_clients_by_reminder_date`: file
the client under `(plan date − 3, '3days')` and `(plan date, 'payment')`. -/
def groupStep (grouped : List (Int × DateGroup)) (c : Client) : List (Int × DateGroup) :=
  insertGrouped (insertGrouped grouped (c.planExpiration - 3) .threeDays c)
    c.planExpiration .payment c

/-- reminder_scheduler.py `group_clients_by_reminder_date`. -/
def groupClientsByReminderDate (clients : List Client) : List (Int × DateGroup) :=
  clients.foldl groupStep []

/-- Dict lookup with the empty group as default (the source only indexes
keys it has inserted; the default makes the lookup total). -/
def lookupGroup (grouped : List (Int × DateGroup)) (key : Int) : DateGroup :=
  match grouped.find? (fun p => p.1 = key) with
  | some p => p.2
  | none => {}

/-- Zero-padded two-digit minute, the `{send_minute:02d}` format. -/
def pad2 (n : Nat) : String :=
  if n < 10 then "0" ++ toString n else toString n

/-- A job registered with the external APScheduler: its id string and its
fire instant (date ordinal, hour, minute). -/
structure Job where
  id : String
  fireDate : Int
  fireHour : Nat
  fireMinute : Nat
  deriving DecidableEq, Repr

/-- The job id
`f'reminder_{reminder_type}_{client.id}_{date}_{send_hour}{send_minute:02d}'`
(the `%Y%m%d` date format is rendered from the day ordinal). -/
def reminderJobId (reminderType : String) (clientId : String) (dateObj : Int)
    (sendHour sendMinute : Nat) : String :=
  "reminder_" ++ (reminderType ++ "_" ++ clientId ++ "_" ++ toString dateObj
    ++ "_" ++ toString sendHour ++ pad2 sendMinute)

/-- The loop of `schedule_batch_reminders` (lines 144-178), carrying the
running index and the (mutated!) `date_obj`. Per client: minute = base
minute + index, the while-loop moves each full 60 minutes into the hour,
and on `send_hour >= 24` the hour is set to 0 and `date_obj` — shared by
all later iterations — is advanced one day. -/
def scheduleBatchLoop (reminderType : String) (hour minute : Nat) :
    List Client → Nat → Int → List Job
  | [], _, _ => []
  | c :: rest, index, dateObj =>
    let sendMinute0 := minute + index
    let sendHour := hour + sendMinute0 / 60
    let sendMinute := sendMinute0 % 60
    if sendHour ≥ 24 then
      let d := dateObj + 1
      { id := reminderJobId reminderType c.id d 0 sendMinute,
        fireDate := d, fireHour := 0, fireMinute := sendMinute }
        :: scheduleBatchLoop reminderType hour minute rest (index + 1) d
    else
      { id := reminderJobId reminderType c.id dateObj sendHour sendMinute,
        fireDate := dateObj, fireHour := sendHour, fireMinute := sendMinute }
        :: scheduleBatchLoop reminderType hour minute rest (index + 1) dateObj

/-- reminder_scheduler.py `schedule_batch_reminders`: the jobs it
registers, in registration order. -/
def scheduleBatchReminders (clientsForDate : List Client) (reminderType : String)
    (baseTime : Nat × Nat) (dateObj : Int) : List Job :=
  scheduleBatchLoop reminderType baseTime.1 baseTime.2 clientsForDate 0 dateObj

/-- Python `str.startswith`, on the character lists. -/
def pyStartsWith (s pre : String) : Bool :=
  s.data.take pre.data.length == pre.data

/-- APScheduler `add_job(..., replace_existing=True)`: a job with the same
id is replaced, the new job going to the end of the registry. -/
def addJob (jobs : List Job) (j : Job) : List Job :=
  jobs.filter (fun j0 => j0.id ≠ j.id) ++ [j]

/-- The `daily_cleanup` maintenance job (`schedule_daily_cleanup`,
fixed 02:00 cron; the date component is unused and set to 0). -/
def dailyCleanupJob : Job :=
  { id := "daily_cleanup", fireDate := 0, fireHour := 2, fireMinute := 0 }

/-- The jobs one `(date, groups)` entry of the grouped dict contributes in
`setup_reminders` (lines 214-236): skip dates strictly before today,
otherwise batch-schedule the non-empty buckets, base time taken from the
first client of each bucket. -/
def jobsForDateEntry (today : Int) (entry : Int × DateGroup) : List Job :=
  if entry.1 < today then []
  else
    (match entry.2.threeDays with
     | [] => []
     | c :: rest => scheduleBatchReminders (c :: rest) "3days" c.reminderTime3days entry.1)
    ++
    (match entry.2.payment with
     | [] => []
     | c :: rest => scheduleBatchReminders (c :: rest) "payment" c.reminderTimePayment entry.1)

/-- All reminder jobs one `setup_reminders` run registers, in order. -/
def plannedJobs (today : Int) (clients : List Client) : List Job :=
  (groupClientsByReminderDate clients).flatMap (jobsForDateEntry today)

/-- reminder_scheduler.py `setup_reminders` acting on the external
scheduler's job registry: remove every job whose id starts with
`reminder_`; on an empty client snapshot return early; otherwise register
each planned job (`add_job` with `replace_existing=True`, a fold because
the loops call `add_job` one job at a time) and finally the
`daily_cleanup` job. -/
def setupReminders (today : Int) (clients : List Client) (jobs : List Job) : List Job :=
  let cleared := jobs.filter (fun j => ¬ pyStartsWith j.id "reminder_")
  if clients = [] then cleared
  else
    addJob ((plannedJobs today clients).foldl addJob cleared) dailyCleanupJob

/-- The rejection conditions of claim C4: a missing field, a recipient
with fewer than 10 or more than 15 digits, an over-long or blank body, or
a full queue. -/
def rejectCond (st : MQState) (m : QueuedMessage) : Prop :=
  m.phone = "" ∨ m.message = "" ∨ m.client_id = "" ∨
    (m.phone.data.filter Char.isDigit).length < 10 ∨
    (m.phone.data.filter Char.isDigit).length > 15 ∨
    m.message.data.length > 4096 ∨ pyStrip m.message = [] ∨
    st.queue.length ≥ maxQueueSize

instance (st : MQState) (m : QueuedMessage) : Decidable (rejectCond st m) := by
  unfold rejectCond; infer_instance

lemma validatePhone_iff (phone : String) :
    validatePhone phone = true ↔
      ¬ ((phone.data.filter Char.isDigit).length < 10 ∨
         (phone.data.filter Char.isDigit).length > 15) := by
  unfold validatePhone
  split_ifs with h <;> simp [h]

lemma validateMessage_eq_false (m : QueuedMessage)
    (h : m.phone = "" ∨ m.message = "" ∨ m.client_id = "" ∨
         (m.phone.data.filter Char.isDigit).length < 10 ∨
         (m.phone.data.filter Char.isDigit).length > 15 ∨
         m.message.data.length > 4096 ∨ pyStrip m.message = []) :
    validateMessage m = false := by
  unfold validateMessage
  split_ifs with h1 h2 h3 h4 <;> try rfl
  exfalso
  rcases h with h | h | h | h | h | h | h
  · exact h1 (Or.inl h)
  · exact h1 (Or.inr (Or.inl h))
  · exact h1 (Or.inr (Or.inr h))
  · exact ((validatePhone_iff m.phone).mp h2) (Or.inl h)
  · exact ((validatePhone_iff m.phone).mp h2) (Or.inr h)
  · exact h3 h
  · exact h4 h

/-- C4: `add_message` returns false and leaves the state (in particular
the pending queue's size and contents) unchanged when a required field is
missing, the recipient has fewer than 10 or more than 15 digits after
stripping non-digits, the body exceeds 4096 characters or is blank after
trimming, or the queue already holds at least `max_queue_size = 1000`
messages. -/
theorem addMessage_rejects_invalid (st : MQState) (m : QueuedMessage)
    (h : rejectCond st m) : addMessage st m = (st, false) := by
  have key : validateMessage m = false ∨ st.queue.length ≥ maxQueueSize := by
    unfold rejectCond at h
    rcases h with h | h | h | h | h | h | h | h
    · exact Or.inl (validateMessage_eq_false m (by tauto))
    · exact Or.inl (validateMessage_eq_false m (by tauto))
    · exact Or.inl (validateMessage_eq_false m (by tauto))
    · exact Or.inl (validateMessage_eq_false m (by tauto))
    · exact Or.inl (validateMessage_eq_false m (by tauto))
    · exact Or.inl (validateMessage_eq_false m (by tauto))
    · exact Or.inl (validateMessage_eq_false m (by tauto))
    · exact Or.inr h
  rcases key with hv | hq
  · unfold addMessage
    rw [if_pos (by simp [hv])]
  · by_cases hv : validateMessage m = true
    · unfold addMessage
      rw [if_neg (by simp [hv]), if_pos hq]
    · unfold addMessage
      rw [if_pos (by simpa using hv)]

/-- Concrete message with a 9-digit recipient, rejected by `add_message`
on the empty queue state. -/
def msg9digits : QueuedMessage :=
  { id := "1", phone := "119876543", message := "ola", client_id := "c1",
    client_name := "n", message_type := "manual", priority := .normal,
    scheduledTime := 0 }

/-- Witness for C4: the 9-digit recipient satisfies the rejection
condition and is indeed rejected without touching the queue. -/
theorem addMessage_rejects_invalid_witness :
    rejectCond {} msg9digits ∧ addMessage {} msg9digits = ({}, false) :=
  ⟨by decide, addMessage_rejects_invalid {} msg9digits (by decide)⟩

/-- Mark a message CANCELLED, as `cancel_messages_for_client` does. -/
def markCancelled (m : QueuedMessage) : QueuedMessage :=
  { m with status := .cancelled }

lemma cancelLoop_spec (cid : String) (q newQueue hist : List QueuedMessage) (n : Nat) :
    cancelLoop cid q newQueue hist n =
      (newQueue ++ q.filter (fun m => ¬ m.client_id = cid),
       hist ++ (q.filter (fun m => m.client_id = cid)).map markCancelled,
       n + q.countP (fun m => m.client_id = cid)) := by
  induction q generalizing newQueue hist n with
  | nil => simp [cancelLoop]
  | cons m rest ih =>
    by_cases h : m.client_id = cid
    · simp [cancelLoop, h, ih, List.filter_cons, List.countP_cons, markCancelled]
      omega
    · simp [cancelLoop, h, ih, List.filter_cons, List.countP_cons]

/-- C5: `cancel_messages_for_client(X)` removes from the pending queue
exactly the messages whose client_id is X, keeping the others in their
relative order; returns exactly the number removed; appends the removed
messages, marked CANCELLED, to the history; and leaves the retry-holding
area, the failed list and all existing history entries (already-SENT
messages included) untouched. -/
theorem cancelMessages_spec (st : MQState) (cid : String) :
    (cancelMessagesForClient st cid).1.queue
        = st.queue.filter (fun m => ¬ m.client_id = cid) ∧
    (cancelMessagesForClient st cid).2
        = st.queue.countP (fun m => m.client_id = cid) ∧
    (cancelMessagesForClient st cid).1.history
        = st.history ++ (st.queue.filter (fun m => m.client_id = cid)).map markCancelled ∧
    (cancelMessagesForClient st cid).1.retryQueue = st.retryQueue ∧
    (cancelMessagesForClient st cid).1.failedMessages = st.failedMessages := by
  unfold cancelMessagesForClient
  rw [cancelLoop_spec]
  simp

/-- C8 counterexample state: a history already at the 1000-entry cap and
one pending message for client "x". -/
def fullHistState : MQState :=
  { queue := [{ msg9digits with client_id := "x" }],
    history := List.replicate 1000 msg9digits }

/-- C8 counterexample: cancelling client "x" appends to the history
without trimming it, leaving 1001 entries — more than the claimed cap of
1000. -/
theorem history_cap_counterexample :
    1000 < ((cancelMessagesForClient fullHistState "x").1.history).length := by
  unfold cancelMessagesForClient
  rw [cancelLoop_spec]
  simp only [List.length_append, List.length_map, List.length_replicate]
  norm_num [fullHistState]

/-- C8 (amended): the worker's history append (`_process_messages` lines
232-238) keeps the log at no more than 1000 entries, evicting oldest
first (the result is a suffix of the appended log); the cancellation path
(`cancel_messages_for_client`) appends CANCELLED messages without
trimming, so its appends can push the log past 1000 until the worker next
appends. -/
theorem history_cap_worker_only (hist : List QueuedMessage) (m : QueuedMessage)
    (st : MQState) (cid : String) :
    (appendHistory hist m).length ≤ 1000 ∧
    (appendHistory hist m).length = min (hist.length + 1) 1000 ∧
    (appendHistory hist m) <:+ (hist ++ [m]) ∧
    (cancelMessagesForClient st cid).1.history
        = st.history ++ (st.queue.filter (fun x => x.client_id = cid)).map markCancelled := by
  refine ⟨?_, ?_, ?_, ?_⟩
  · unfold appendHistory
    split_ifs with h <;> simp_all <;> omega
  · unfold appendHistory
    split_ifs with h <;> simp_all <;> omega
  · unfold appendHistory
    split_ifs with h
    · exact List.drop_suffix _ _
    · exact List.suffix_refl _
  · unfold cancelMessagesForClient
    rw [cancelLoop_spec]

/-- A fresh PENDING message with the default `max_retries = 3`, used for
the retry-trace counterexample. -/
def freshMsg : QueuedMessage :=
  { id := "2", phone := "11987654321", message := "ola", client_id := "c1",
    client_name := "n", message_type := "payment", priority := .high,
    scheduledTime := 0 }

/-- C1 counterexample: for a fresh message with `max_retries = 3` whose
every delivery attempt fails, the computed retry delays are 120s, 240s,
300s — not the 60s, 120s, 240s the claim states — because
`min(300, 60 * 2 ** retry_count)` is evaluated after `retry_count` has
been incremented. -/
theorem retryDelays_counterexample :
    (failTrace 0 freshMsg 4).map (fun p => p.2) ≠ [some 60, some 120, some 240, none] ∧
    (failTrace 0 freshMsg 4).map (fun p => p.2) = [some 120, some 240, some 300, none] := by
  constructor <;> decide

/-- C1 (amended): a message with `max_retries = 3` and `retry_count = 0`
whose every delivery attempt fails transitions PENDING → RETRYING (three
times) → FAILED; its retry_count takes the values 1, 2, 3 and never
exceeds `max_retries`, the fourth failure (retry_count = max_retries) is
the terminal FAILED transition, and the computed retry delays before the
re-attempts are 120s, 240s, 300s — `min(300, 60 * 2 ** retry_count)`
with the already-incremented retry_count — each capped at 300s. -/
theorem allFailing_trace (m : QueuedMessage) (now : Int)
    (hmr : m.maxRetries = 3) (hrc : m.retryCount = 0) (hst : m.status = .pending) :
    (failTrace now m 4).map (fun p => p.1.status)
        = [.retrying, .retrying, .retrying, .failed] ∧
    (failTrace now m 4).map (fun p => p.1.retryCount) = [1, 2, 3, 3] ∧
    (∀ p ∈ failTrace now m 4, p.1.retryCount ≤ m.maxRetries) ∧
    (failTrace now m 4).map (fun p => p.2) = [some 120, some 240, some 300, none] ∧
    (∀ p ∈ failTrace now m 4, ∀ d, p.2 = some d → d ≤ 300) := by
  have h1 : failStep now m =
      ({ m with retryCount := 1, status := .retrying, scheduledTime := now + 120 },
        some 120) := by
    unfold failStep
    rw [if_pos (by omega)]
    simp [hrc]
  refine ⟨?_, ?_, ?_, ?_, ?_⟩ <;>
    simp [failTrace, failStep, h1, hmr, hrc] <;>
    norm_num

/-- Witness for C1's amended theorem at the concrete fresh message. -/
theorem allFailing_trace_witness :
    freshMsg.maxRetries = 3 ∧ freshMsg.retryCount = 0 ∧ freshMsg.status = .pending ∧
    (failTrace 0 freshMsg 4).map (fun p => p.1.status)
        = [.retrying, .retrying, .retrying, .failed] :=
  ⟨by decide, by decide, by decide,
    (allFailing_trace freshMsg 0 (by decide) (by decide) (by decide)).1⟩

lemma sendTimes_head_ge (delay : Int) (evs : List WorkerEvent) :
    ∀ lastSent t, (sendTimes delay lastSent evs).head? = some t → lastSent + delay ≤ t := by
  induction evs with
  | nil => intro lastSent t h; simp [sendTimes] at h
  | cons e rest ih =>
    intro lastSent t h
    unfold sendTimes at h
    by_cases hs : e.success
    · simp [hs] at h
      split_ifs at h with hw <;> omega
    · simp [hs] at h
      exact ih lastSent t h

/-- C2: in every execution of the worker loop, any two consecutive
successful send instants are at least `delay_between_messages` (60s)
apart in wall-clock time, regardless of the number or outcome of the
events in between: before each attempt the worker sleeps whatever remains
of the minimum spacing since the last successful send. -/
theorem consecutive_sends_spaced (lastSent : Int) (evs : List WorkerEvent) :
    (sendTimes delayBetweenMessages lastSent evs).Chain'
      (fun s t => s + delayBetweenMessages ≤ t) := by
  induction evs generalizing lastSent with
  | nil => simp [sendTimes]
  | cons e rest ih =>
    unfold sendTimes
    by_cases hs : e.success
    · simp only [hs, if_true]
      rw [List.chain'_cons']
      constructor
      · intro t ht
        have h := sendTimes_head_ge delayBetweenMessages rest _ t ht
        omega
      · exact ih _
    · simp only [hs, if_false]
      exact ih lastSent

lemma shouldSendReminder_iff (today : Int) (c : Client) :
    shouldSendReminder today c = true ↔
      (c.paymentStatus ≠ "paid" ∧ ¬ daysUntilExpiration today c < 0) := by
  simp [shouldSendReminder, isExpired]

/-- C7: `send_reminder` enqueues nothing when the fetched client has
`should_send_reminder == false`; otherwise (provided the resolved message
body is non-empty) it submits exactly one message to the queue, whose
priority is HIGH for the `payment` kind, URGENT for a client already in
`expirado` status, and NORMAL otherwise. -/
theorem sendReminder_priority_spec (today : Int) (c : Client) (reminderType : String)
    (resolve : Client → String → String) :
    (¬ shouldSendReminder today c →
      sendReminder today (some c) reminderType resolve = none) ∧
    (shouldSendReminder today c → resolve c reminderType ≠ "" →
      sendReminder today (some c) reminderType resolve =
        some { id := "", phone := c.phone, message := resolve c reminderType,
               client_id := c.id, client_name := c.name,
               message_type := reminderType,
               priority :=
                 if reminderType = "payment" then .high
                 else if clientStatus today c = "expirado" then .urgent
                 else .normal,
               scheduledTime := 0 }) := by
  constructor
  · intro h
    simp only [sendReminder]
    rw [if_pos h]
  · intro h hmsg
    simp only [sendReminder]
    rw [if_neg (by simpa using h), if_neg hmsg]

/-- A client whose plan expires in 2 days and whose payment is pending. -/
def pendingClient : Client :=
  { id := "c1", name := "n", phone := "11987654321", planExpiration := 2 }

/-- Witness for C7 at a concrete client due for a `payment` reminder. -/
theorem sendReminder_priority_spec_witness :
    shouldSendReminder 0 pendingClient = true ∧
    (fun (_ : Client) (_ : String) => "ola") pendingClient "payment" ≠ "" ∧
    sendReminder 0 (some pendingClient) "payment" (fun _ _ => "ola") =
      some { id := "", phone := pendingClient.phone, message := "ola",
             client_id := pendingClient.id, client_name := pendingClient.name,
             message_type := "payment", priority := .high, scheduledTime := 0 } := by
  refine ⟨by decide, by decide, ?_⟩
  have h := (sendReminder_priority_spec 0 pendingClient "payment"
      (fun _ _ => "ola")).2 (by decide) (by decide)
  rw [h]
  decide

/-- C10 (implicit): no message `send_reminder` submits ever carries
URGENT priority: a client in `expirado` status is expired, so
`should_send_reminder` is false and `send_reminder` returns before the
priority derivation — the URGENT branch is unreachable and every
submitted reminder is HIGH or NORMAL. -/
theorem sendReminder_never_urgent (today : Int) (client? : Option Client)
    (reminderType : String) (resolve : Client → String → String) (m : QueuedMessage)
    (h : sendReminder today client? reminderType resolve = some m) :
    m.priority = .high ∨ m.priority = .normal := by
  match client? with
  | none => simp [sendReminder] at h
  | some c =>
    simp only [sendReminder] at h
    by_cases hs : shouldSendReminder today c = true
    · rw [if_neg (by simpa using hs)] at h
      by_cases hmsg : resolve c reminderType = ""
      · rw [if_pos hmsg] at h
        exact absurd h (by simp)
      · rw [if_neg hmsg] at h
        have hexp : ¬ daysUntilExpiration today c < 0 :=
          ((shouldSendReminder_iff today c).mp hs).2
        have hstat : clientStatus today c ≠ "expirado" := by
          unfold clientStatus
          rw [if_neg hexp]
          split_ifs <;> decide
        by_cases hpay : reminderType = "payment"
        · left
          injection h with h
          rw [← h]
          simp [hpay]
        · right
          injection h with h
          rw [← h]
          simp [hpay, hstat]
    · rw [if_pos (by simpa using hs)] at h
      exact absurd h (by simp)

/-- The message `send_reminder` submits for `pendingClient` and kind
`3days` with a constant resolver. -/
def pendingClientMsg : QueuedMessage :=
  { id := "", phone := pendingClient.phone, message := "ola",
    client_id := pendingClient.id, client_name := pendingClient.name,
    message_type := "3days", priority := .normal, scheduledTime := 0 }

/-- Witness for C10 at a concrete submitted reminder. -/
theorem sendReminder_never_urgent_witness :
    sendReminder 0 (some pendingClient) "3days" (fun _ _ => "ola") = some pendingClientMsg ∧
    (pendingClientMsg.priority = .high ∨ pendingClientMsg.priority = .normal) :=
  ⟨by decide,
    sendReminder_never_urgent 0 (some pendingClient) "3days" (fun _ _ => "ola")
      pendingClientMsg (by decide)⟩

lemma scheduleBatchLoop_length (reminderType : String) (hour minute : Nat) :
    ∀ (cs : List Client) (idx : Nat) (dateObj : Int),
      (scheduleBatchLoop reminderType hour minute cs idx dateObj).length = cs.length := by
  intro cs
  induction cs with
  | nil => intro idx dateObj; rfl
  | cons c rest ih =>
    intro idx dateObj
    unfold scheduleBatchLoop
    dsimp only
    split_ifs <;> simp [ih]

lemma scheduleBatchReminders_length (cs : List Client) (reminderType : String)
    (baseTime : Nat × Nat) (dateObj : Int) :
    (scheduleBatchReminders cs reminderType baseTime dateObj).length = cs.length :=
  scheduleBatchLoop_length reminderType baseTime.1 baseTime.2 cs 0 dateObj

lemma find?_update_ne (g : List (Int × DateGroup)) (key d : Int) (k : RKind)
    (c : Client) (hne : d ≠ key) :
    (g.map (fun p => if p.1 = key then (p.1, updateGroup k c p.2) else p)).find?
        (fun p => p.1 = d)
      = g.find? (fun p => p.1 = d) := by
  induction g with
  | nil => rfl
  | cons p g ih =>
    by_cases hp : p.1 = key
    · rw [List.map_cons, if_pos hp,
        List.find?_cons_of_neg _ (by simp [hp]; exact fun h => hne h.symm),
        List.find?_cons_of_neg _ (by simp [hp]; exact fun h => hne h.symm)]
      exact ih
    · rw [List.map_cons, if_neg hp]
      by_cases hd : p.1 = d
      · rw [List.find?_cons_of_pos _ (by simp [hd]),
          List.find?_cons_of_pos _ (by simp [hd])]
      · rw [List.find?_cons_of_neg _ (by simp [hd]),
          List.find?_cons_of_neg _ (by simp [hd])]
        exact ih

lemma find?_update_self (g : List (Int × DateGroup)) (key : Int) (k : RKind)
    (c : Client) :
    (g.map (fun p => if p.1 = key then (p.1, updateGroup k c p.2) else p)).find?
        (fun p => p.1 = key)
      = (g.find? (fun p => p.1 = key)).map
          (fun p => (p.1, updateGroup k c p.2)) := by
  induction g with
  | nil => rfl
  | cons p g ih =>
    by_cases hp : p.1 = key
    · rw [List.map_cons, if_pos hp,
        List.find?_cons_of_pos _ (by simp [hp]),
        List.find?_cons_of_pos _ (by simp [hp])]
      rfl
    · rw [List.map_cons, if_neg hp,
        List.find?_cons_of_neg _ (by simp [hp]),
        List.find?_cons_of_neg _ (by simp [hp])]
      exact ih

lemma lookupGroup_insertGrouped (g : List (Int × DateGroup)) (key : Int)
    (k : RKind) (c : Client) (d : Int) :
    lookupGroup (insertGrouped g key k c) d =
      if d = key then updateGroup k c (lookupGroup g d) else lookupGroup g d := by
  unfold insertGrouped lookupGroup
  by_cases hany : g.any (fun p => p.1 = key)
  · rw [if_pos hany]
    by_cases hd : d = key
    · subst hd
      rw [find?_update_self]
      cases hfind : g.find? (fun p => decide (p.1 = d)) with
      | none =>
        exfalso
        rw [List.find?_eq_none] at hfind
        rcases List.any_eq_true.mp hany with ⟨p, hp, hpk⟩
        exact hfind p hp hpk
      | some p => simp
    · rw [find?_update_ne g key d k c hd, if_neg hd]
  · rw [if_neg hany, List.find?_append]
    by_cases hd : d = key
    · subst hd
      have hnone : g.find? (fun p => decide (p.1 = d)) = none := by
        rw [List.find?_eq_none]
        intro x hx hx2
        exact hany (List.any_eq_true.mpr ⟨x, hx, hx2⟩)
      rw [hnone]
      simp
    · have hsingle :
          ([(key, updateGroup k c ({} : DateGroup))].find? (fun p => p.1 = d)) = none := by
        simp
        exact fun h => hd h.symm
      rw [hsingle, if_neg hd]
      simp

lemma lookupGroup_foldl (cs : List Client) (acc : List (Int × DateGroup)) (d : Int) :
    lookupGroup (cs.foldl groupStep acc) d =
      { threeDays := (lookupGroup acc d).threeDays
          ++ cs.filter (fun c => c.planExpiration - 3 = d),
        payment := (lookupGroup acc d).payment
          ++ cs.filter (fun c => c.planExpiration = d) } := by
  induction cs generalizing acc with
  | nil => simp
  | cons c cs ih =>
    rw [List.foldl_cons, ih]
    unfold groupStep
    rw [lookupGroup_insertGrouped, lookupGroup_insertGrouped]
    have hne : c.planExpiration - 3 ≠ c.planExpiration := by omega
    by_cases h3 : c.planExpiration - 3 = d
    · have hp : c.planExpiration ≠ d := by omega
      rw [if_neg (fun h => hp h.symm), if_pos h3.symm]
      simp [updateGroup, List.filter_cons, h3, hp]
    · by_cases hp : c.planExpiration = d
      · rw [if_pos hp.symm]
        rw [if_neg (fun h => h3 h.symm)]
        simp [updateGroup, List.filter_cons, h3, hp]
      · rw [if_neg (fun h => hp h.symm), if_neg (fun h => h3 h.symm)]
        simp [List.filter_cons, h3, hp]

/-- C6: for every client list and every value of today, the planner files
each client under exactly the two candidate fire dates
`plan expiration − 3` (kind 3days) and `plan expiration` (kind payment) —
the bucket at date `d` holds precisely the clients whose corresponding
candidate date is `d`, in input order — and `setup_reminders` skips a
grouped date exactly when it is strictly before today (a skipped date
registers no job; a kept date with a non-empty bucket registers at least
one). -/
theorem planner_spec (clients : List Client) (today d : Int) (g : DateGroup) :
    lookupGroup (groupClientsByReminderDate clients) d =
      { threeDays := clients.filter (fun c => c.planExpiration - 3 = d),
        payment := clients.filter (fun c => c.planExpiration = d) } ∧
    (d < today → jobsForDateEntry today (d, g) = []) ∧
    (today ≤ d → (g.threeDays ≠ [] ∨ g.payment ≠ []) →
      jobsForDateEntry today (d, g) ≠ []) := by
  refine ⟨?_, ?_, ?_⟩
  · unfold groupClientsByReminderDate
    rw [lookupGroup_foldl]
    simp [lookupGroup]
  · intro h
    unfold jobsForDateEntry
    rw [if_pos h]
  · intro h hne
    unfold jobsForDateEntry
    rw [if_neg (by omega)]
    intro hzero
    rcases List.append_eq_nil.mp hzero with ⟨h1, h2⟩
    rcases hne with hne | hne
    · cases hg : g.threeDays with
      | nil => exact absurd hg hne
      | cons c rest =>
        rw [hg] at h1
        dsimp only at h1
        have hlen := scheduleBatchReminders_length (c :: rest) "3days"
          c.reminderTime3days d
        rw [h1] at hlen
        simp at hlen
    · cases hgp : g.payment with
      | nil => exact absurd hgp hne
      | cons c rest =>
        rw [hgp] at h2
        dsimp only at h2
        have hlen := scheduleBatchReminders_length (c :: rest) "payment"
          c.reminderTimePayment d
        rw [h2] at hlen
        simp at hlen

/-- The client of the spec's worked example: plan expiration 2025-01-10. -/
def exClient : Client := { id := "e1", planExpiration := daysFromCivil 2025 1 10 }

/-- Witness for C6: with plan expiration 2025-01-10 and today 2025-01-01,
the client is filed under 2025-01-07 (3days) and 2025-01-10 (payment) and
neither date is skipped. -/
theorem planner_spec_witness :
    lookupGroup (groupClientsByReminderDate [exClient]) (daysFromCivil 2025 1 7) =
      { threeDays := [exClient], payment := [] } ∧
    lookupGroup (groupClientsByReminderDate [exClient]) (daysFromCivil 2025 1 10) =
      { threeDays := [], payment := [exClient] } ∧
    daysFromCivil 2025 1 10 - 3 = daysFromCivil 2025 1 7 ∧
    daysFromCivil 2025 1 1 ≤ daysFromCivil 2025 1 7 ∧
    jobsForDateEntry (daysFromCivil 2025 1 1)
        (daysFromCivil 2025 1 7, { threeDays := [exClient], payment := [] }) ≠ [] ∧
    jobsForDateEntry (daysFromCivil 2025 1 1)
        (daysFromCivil 2025 1 10, { threeDays := [], payment := [exClient] }) ≠ [] := by
  refine ⟨?_, ?_, by decide, by decide, ?_, ?_⟩
  · rw [(planner_spec [exClient] 0 (daysFromCivil 2025 1 7) {}).1]
    decide
  · rw [(planner_spec [exClient] 0 (daysFromCivil 2025 1 10) {}).1]
    decide
  · exact (planner_spec [] (daysFromCivil 2025 1 1) (daysFromCivil 2025 1 7) _).2.2
      (by decide) (Or.inl (by decide))
  · exact (planner_spec [] (daysFromCivil 2025 1 1) (daysFromCivil 2025 1 10) _).2.2
      (by decide) (Or.inr (by decide))

/-- Modelled from the spec's words, for comparison with the code (claim
C3): client `i` fires at base time + `i` minutes, minute overflow rolling
into the hour and hour overflow rolling into the next day. Returned as
(fire date, fire hour, fire minute). -/
def specFireTime (dateObj : Int) (hour minute i : Nat) : Int × Nat × Nat :=
  (dateObj + ((hour * 60 + minute + i) / 1440 : Nat),
   ((hour * 60 + minute + i) / 60) % 24,
   (hour * 60 + minute + i) % 60)

/-- Three clients sharing a (fire date, kind) group. -/
def threeClients : List Client :=
  [{ id := "a", planExpiration := 0 }, { id := "b", planExpiration := 0 },
   { id := "c", planExpiration := 0 }]

/-- C3 counterexample: with base time 23:59, the claim puts client index
2 at 00:01 one day after the base date, but the code fires it two days
after the base date: the loop advances the shared `date_obj` once per
client whose computed hour overflows, so the day offset accumulates. -/
theorem batch_fire_time_counterexample :
    ((scheduleBatchReminders threeClients "3days" (23, 59) 0)[2]?).map
        (fun j => (j.fireDate, j.fireHour, j.fireMinute)) = some (2, 0, 1) ∧
    specFireTime 0 23 59 2 = (1, 0, 1) ∧
    ((2 : Int), (0 : Nat), (1 : Nat)) ≠ ((1 : Int), (0 : Nat), (1 : Nat)) := by
  refine ⟨by decide, by decide, by decide⟩

lemma scheduleBatchLoop_fire (reminderType : String) (hour minute : Nat) :
    ∀ (cs : List Client) (idx : Nat) (dateObj : Int) (i : Nat), i < cs.length →
      hour + (minute + (idx + i)) / 60 < 24 →
      ((scheduleBatchLoop reminderType hour minute cs idx dateObj)[i]?).map
          (fun j => (j.fireDate, j.fireHour, j.fireMinute))
        = some (dateObj, hour + (minute + (idx + i)) / 60, (minute + (idx + i)) % 60) := by
  intro cs
  induction cs with
  | nil => intro idx dateObj i hi; simp at hi
  | cons c rest ih =>
    intro idx dateObj i hi hno
    unfold scheduleBatchLoop
    dsimp only
    have hmono : (minute + idx) / 60 ≤ (minute + (idx + i)) / 60 :=
      Nat.div_le_div_right (by omega)
    rw [if_neg (by omega)]
    cases i with
    | zero => simp
    | succ j =>
      rw [List.getElem?_cons_succ]
      have harg : idx + 1 + j = idx + (j + 1) := by omega
      have happ := ih (idx + 1) dateObj j (by simpa using hi) (by rw [harg]; omega)
      rw [harg] at happ
      exact happ

/-- C3 (amended): the batch scheduler registers one timed job per client;
whenever client `i`'s computed hour `hour + (minute + i) / 60` stays
below 24, client `i` (0-indexed, in input order) fires at base time + `i`
minutes on the group's date, minute overflow rolling into the hour — in
particular with base 09:00 client 61 fires at 10:01. When the computed
hour reaches 24 the code instead clamps the hour to 0 (rather than
reducing it modulo 24) and advances the shared date once per overflowing
client, so past-midnight fire times deviate from base time + `i` minutes
(see the counterexample). -/
theorem batch_fire_times (clients : List Client) (reminderType : String)
    (hour minute : Nat) (dateObj : Int) :
    (scheduleBatchReminders clients reminderType (hour, minute) dateObj).length
        = clients.length ∧
    (∀ i, i < clients.length → hour + (minute + i) / 60 < 24 →
      ((scheduleBatchReminders clients reminderType (hour, minute) dateObj)[i]?).map
          (fun j => (j.fireDate, j.fireHour, j.fireMinute))
        = some (specFireTime dateObj hour minute i)) := by
  constructor
  · exact scheduleBatchReminders_length clients reminderType (hour, minute) dateObj
  · intro i hi hno
    have h := scheduleBatchLoop_fire reminderType hour minute clients 0 dateObj i hi
      (by simpa using hno)
    rw [Nat.zero_add] at h
    unfold scheduleBatchReminders
    rw [h]
    unfold specFireTime
    have h1 : (hour * 60 + minute + i) / 1440 = 0 := by omega
    have h2 : (hour * 60 + minute + i) / 60 % 24 = hour + (minute + i) / 60 := by omega
    have h3 : (hour * 60 + minute + i) % 60 = (minute + i) % 60 := by omega
    rw [h1, h2, h3]
    simp

/-- Sixty-two clients sharing a (fire date, kind) group. -/
def manyClients : List Client :=
  (List.range 62).map (fun i => { id := toString i, planExpiration := 0 })

/-- Witness for C3's amended theorem: with base time 09:00, client index
61 fires at 10:01 on the group's date. -/
theorem batch_fire_times_witness :
    61 < manyClients.length ∧ 9 + (0 + 61) / 60 < 24 ∧
    ((scheduleBatchReminders manyClients "3days" (9, 0) 0)[61]?).map
        (fun j => (j.fireDate, j.fireHour, j.fireMinute)) = some (0, 10, 1) := by
  refine ⟨by decide, by decide, ?_⟩
  have h := (batch_fire_times manyClients "3days" 9 0 0).2 61 (by decide) (by decide)
  rw [h]
  decide

lemma pyStartsWith_reminder (rest : String) :
    pyStartsWith ("reminder_" ++ rest) "reminder_" = true := by
  unfold pyStartsWith
  rw [String.data_append, List.take_left]
  simp

lemma reminderJobId_isRem (reminderType clientId : String) (dateObj : Int)
    (sendHour sendMinute : Nat) :
    pyStartsWith (reminderJobId reminderType clientId dateObj sendHour sendMinute)
      "reminder_" = true := by
  unfold reminderJobId
  exact pyStartsWith_reminder _

lemma scheduleBatchLoop_isRem (reminderType : String) (hour minute : Nat) :
    ∀ (cs : List Client) (idx : Nat) (dateObj : Int),
      ∀ j ∈ scheduleBatchLoop reminderType hour minute cs idx dateObj,
        pyStartsWith j.id "reminder_" = true := by
  intro cs
  induction cs with
  | nil => intro idx dateObj j hj; simp [scheduleBatchLoop] at hj
  | cons c rest ih =>
    intro idx dateObj j hj
    unfold scheduleBatchLoop at hj
    dsimp only at hj
    split_ifs at hj with hcond <;>
      rcases List.mem_cons.mp hj with h | h
    · subst h; exact reminderJobId_isRem ..
    · exact ih _ _ j h
    · subst h; exact reminderJobId_isRem ..
    · exact ih _ _ j h

lemma jobsForDateEntry_isRem (today : Int) (entry : Int × DateGroup) :
    ∀ j ∈ jobsForDateEntry today entry, pyStartsWith j.id "reminder_" = true := by
  intro j hj
  unfold jobsForDateEntry at hj
  split_ifs at hj with hd
  · simp at hj
  · rcases List.mem_append.mp hj with h | h
    · revert h
      cases entry.2.threeDays with
      | nil => intro h; simp at h
      | cons c rest => intro h; exact scheduleBatchLoop_isRem _ _ _ _ _ _ j h
    · revert h
      cases entry.2.payment with
      | nil => intro h; simp at h
      | cons c rest => intro h; exact scheduleBatchLoop_isRem _ _ _ _ _ _ j h

lemma plannedJobs_isRem (today : Int) (clients : List Client) :
    ∀ j ∈ plannedJobs today clients, pyStartsWith j.id "reminder_" = true := by
  intro j hj
  rcases List.mem_flatMap.mp hj with ⟨e, he, hje⟩
  exact jobsForDateEntry_isRem today e j hje

lemma filter_comm_jobs (p q : Job → Bool) (s : List Job) :
    (s.filter p).filter q = (s.filter q).filter p := by
  rw [List.filter_filter, List.filter_filter]
  exact List.filter_congr fun a _ => Bool.and_comm _ _

lemma filter_idem_jobs (p : Job → Bool) (s : List Job) :
    (s.filter p).filter p = s.filter p := by
  rw [List.filter_filter]
  exact List.filter_congr fun a _ => by cases hp : p a <;> simp [hp]

lemma filter_addJob (p : Job → Bool) (s : List Job) (j : Job) (hp : p j = true) :
    (addJob s j).filter p = addJob (s.filter p) j := by
  unfold addJob
  rw [List.filter_append, List.filter_filter, List.filter_filter]
  have h1 : List.filter p [j] = [j] := by simp [hp]
  rw [h1]
  congr 1
  exact List.filter_congr fun a _ => Bool.and_comm _ _

lemma filter_foldl_addJob (p : Job → Bool) :
    ∀ (J : List Job) (s : List Job), (∀ j ∈ J, p j = true) →
      (J.foldl addJob s).filter p = J.foldl addJob (s.filter p) := by
  intro J
  induction J with
  | nil => intro s _; rfl
  | cons j J ih =>
    intro s hJ
    rw [List.foldl_cons, List.foldl_cons,
      ih _ (fun x hx => hJ x (List.mem_cons_of_mem _ hx)),
      filter_addJob p s j (hJ j (List.mem_cons_self _ _))]

lemma notRem_filter_addJob_rem (s : List Job) (j : Job)
    (hj : pyStartsWith j.id "reminder_" = true) :
    (addJob s j).filter (fun j0 => ¬ pyStartsWith j0.id "reminder_")
      = s.filter (fun j0 => ¬ pyStartsWith j0.id "reminder_") := by
  unfold addJob
  rw [List.filter_append, List.filter_filter]
  have h1 : List.filter (fun j0 => ¬ pyStartsWith j0.id "reminder_") [j] = [] := by
    simp [hj]
  rw [h1, List.append_nil]
  refine List.filter_congr fun a _ => ?_
  by_cases ha : pyStartsWith a.id "reminder_" = true
  · simp [ha]
  · have hne : a.id ≠ j.id := fun heq => ha (by rw [heq]; exact hj)
    simp [ha, hne]

lemma notRem_foldl_rem :
    ∀ (J : List Job), (∀ j ∈ J, pyStartsWith j.id "reminder_" = true) →
      ∀ s, (J.foldl addJob s).filter (fun j0 => ¬ pyStartsWith j0.id "reminder_")
        = s.filter (fun j0 => ¬ pyStartsWith j0.id "reminder_") := by
  intro J
  induction J with
  | nil => intro _ s; rfl
  | cons j J ih =>
    intro hJ s
    rw [List.foldl_cons, ih (fun x hx => hJ x (List.mem_cons_of_mem _ hx)),
      notRem_filter_addJob_rem s j (hJ j (List.mem_cons_self _ _))]

lemma addJob_def (s : List Job) (j : Job) :
    addJob s j = s.filter (fun j0 => j0.id ≠ j.id) ++ [j] := rfl

lemma addJob_congr (x y : List Job) (j : Job)
    (h : x.filter (fun j0 => j0.id ≠ j.id) = y.filter (fun j0 => j0.id ≠ j.id)) :
    addJob x j = addJob y j := by
  unfold addJob
  rw [h]

lemma ids_filter (s : List Job) (p : String → Bool) :
    (s.filter (fun j0 => p j0.id)).map Job.id = (s.map Job.id).filter p := by
  induction s with
  | nil => rfl
  | cons j s ih => cases hp : p j.id <;> simp [List.filter_cons, hp, ih]

lemma nodup_ids_addJob (s : List Job) (j : Job) (hs : (s.map Job.id).Nodup) :
    ((addJob s j).map Job.id).Nodup := by
  unfold addJob
  rw [List.map_append, ids_filter s (fun y => ¬ y = j.id), List.nodup_append]
  refine ⟨hs.filter _, List.nodup_singleton _, ?_⟩
  intro x hx hx2
  rcases List.mem_filter.mp hx with ⟨-, hne⟩
  simp at hx2 hne
  exact hne hx2

lemma nodup_ids_foldl :
    ∀ (J : List Job) (s : List Job), (s.map Job.id).Nodup →
      ((J.foldl addJob s).map Job.id).Nodup := by
  intro J
  induction J with
  | nil => intro s hs; exact hs
  | cons j J ih =>
    intro s hs
    rw [List.foldl_cons]
    exact ih _ (nodup_ids_addJob s j hs)

/-- C9: rebuilding the schedule twice in a row with the same client set
and the same value of today leaves the scheduler's job registry exactly
as one rebuild does: the second `setup_reminders` run removes precisely
the `reminder_`-prefixed jobs the first registered and re-registers the
same deterministic ids (the whole registry, order included, is
unchanged), so there are no orphaned first-run jobs; and a registry with
distinct job ids keeps distinct job ids (`replace_existing` replaces
instead of duplicating). -/
theorem setupReminders_idempotent (today : Int) (clients : List Client)
    (jobs : List Job) :
    setupReminders today clients (setupReminders today clients jobs)
      = setupReminders today clients jobs ∧
    ((jobs.map Job.id).Nodup →
      ((setupReminders today clients jobs).map Job.id).Nodup) := by
  have hJrem := plannedJobs_isRem today clients
  have hdcid : dailyCleanupJob.id = "daily_cleanup" := rfl
  have hdc : pyStartsWith dailyCleanupJob.id "reminder_" = false := by decide
  have hne_dc : ∀ j ∈ plannedJobs today clients,
      (fun (j0 : Job) => (j0.id ≠ dailyCleanupJob.id : Bool)) j = true := by
    intro j hj
    simp only [decide_eq_true_eq]
    intro heq
    have hrem := hJrem j hj
    rw [heq, hdc] at hrem
    exact Bool.false_ne_true hrem
  constructor
  · by_cases hcl : clients = []
    · unfold setupReminders
      rw [if_pos hcl, if_pos hcl]
      exact filter_idem_jobs _ jobs
    · unfold setupReminders
      rw [if_neg hcl, if_neg hcl]
      apply addJob_congr
      have stepA :
          (addJob ((plannedJobs today clients).foldl addJob
              (jobs.filter (fun j0 => ¬ pyStartsWith j0.id "reminder_")))
            dailyCleanupJob).filter (fun j0 => ¬ pyStartsWith j0.id "reminder_")
          = (jobs.filter (fun j0 => ¬ pyStartsWith j0.id "reminder_")).filter
              (fun j0 => j0.id ≠ dailyCleanupJob.id) ++ [dailyCleanupJob] := by
        rw [addJob_def, List.filter_append]
        have h1 : List.filter (fun j0 => ¬ pyStartsWith j0.id "reminder_")
            [dailyCleanupJob] = [dailyCleanupJob] := by decide
        rw [h1, filter_comm_jobs, notRem_foldl_rem _ hJrem, filter_idem_jobs]
      rw [stepA]
      rw [filter_foldl_addJob _ _ _ hne_dc, filter_foldl_addJob _ _ _ hne_dc]
      congr 1
      rw [List.filter_append, filter_idem_jobs]
      have h2 : List.filter (fun j0 => (j0.id ≠ dailyCleanupJob.id : Bool))
          [dailyCleanupJob] = [] := by decide
      rw [h2, List.append_nil]
  · intro hn
    by_cases hcl : clients = []
    · unfold setupReminders
      rw [if_pos hcl, ids_filter jobs (fun y => ¬ pyStartsWith y "reminder_")]
      exact hn.filter _
    · unfold setupReminders
      rw [if_neg hcl]
      apply nodup_ids_addJob
      apply nodup_ids_foldl
      rw [ids_filter jobs (fun y => ¬ pyStartsWith y "reminder_")]
      exact hn.filter _

/-- Witness for C9's no-duplicates part on a concrete registry. -/
theorem setupReminders_idempotent_witness :
    (([] : List Job).map Job.id).Nodup ∧
    ((setupReminders 0 [exClient] []).map Job.id).Nodup :=
  ⟨by decide, (setupReminders_idempotent 0 [exClient] []).2 (by decide)⟩

end IPTV
